import Mathlib

/-!
Shallow embedding of the BondIT-ApS/dnssec-validator validation engine
(`app/dnssec_validator.py`, `app/tlsa_validator.py`, `app/domain_utils.py`).

DNS answers, TLS certificate fetches and hash primitives are external
capabilities of the Python code (dnspython, ssl, hashlib); they are modelled
as explicit inputs: a `QueryResult` per DNS query, an `Except` for the TLS
fetch, and a `HashImpl` record holding the two hex-digest functions.
Everything the repository itself computes is translated function by function.
-/

namespace DV

/-! ## Byte and character helpers (Python `str`/`bytes` primitives) -/

/-- Hex digit character for a nibble, lowercase as Python `bytes.hex()`. -/
def hexDigit (n : Nat) : Char :=
  if n = 0 then '0' else if n = 1 then '1' else if n = 2 then '2'
  else if n = 3 then '3' else if n = 4 then '4' else if n = 5 then '5'
  else if n = 6 then '6' else if n = 7 then '7' else if n = 8 then '8'
  else if n = 9 then '9' else if n = 10 then 'a' else if n = 11 then 'b'
  else if n = 12 then 'c' else if n = 13 then 'd' else if n = 14 then 'e'
  else 'f'

/-- One byte to two lowercase hex characters. -/
def byteToHex (b : Nat) : List Char := [hexDigit (b / 16 % 16), hexDigit (b % 16)]

/-- Python `bytes.hex()`: lowercase hex string of a byte sequence. -/
def bytesToHex (bs : List Nat) : String := ⟨(bs.map byteToHex).flatten⟩

/-- Python `str.lower()` restricted to ASCII (all strings handled by the
validator are ASCII domain names, hex strings and fixed messages). -/
def pyLowerChar (c : Char) : Char :=
  if 'A' ≤ c ∧ c ≤ 'Z' then Char.ofNat (c.toNat + 32) else c

def pyLowerList (l : List Char) : List Char := l.map pyLowerChar

def pyLower (s : String) : String := ⟨pyLowerList s.data⟩

/-- Python `str.strip()` whitespace set (ASCII part). -/
def isPySpace (c : Char) : Bool :=
  c == ' ' || c == '\t' || c == '\n' || c == '\r' ||
  c == Char.ofNat 11 || c == Char.ofNat 12

/-- Python `str.strip()`. -/
def pyStripList (l : List Char) : List Char :=
  ((l.dropWhile isPySpace).reverse.dropWhile isPySpace).reverse

/-- Python `str.replace(" ", "")`. -/
def removeSpaces (l : List Char) : List Char := l.filter (fun c => c != ' ')

/-- First component of Python `s.split(sep)` for a one-character separator,
i.e. the prefix before the first occurrence of `c`. -/
def takeUntilChar (l : List Char) (c : Char) : List Char :=
  l.takeWhile (fun x => x != c)

/-- Split before the first occurrence of a (nonempty) separator:
`some (before, after)` models Python `s.split(sep, 1)` when `sep` occurs. -/
def breakOnFirst (sep : List Char) : List Char → Option (List Char × List Char)
  | [] => if sep.isEmpty then some ([], []) else none
  | c :: rest =>
    if sep.isPrefixOf (c :: rest) then some ([], (c :: rest).drop sep.length)
    else
      match breakOnFirst sep rest with
      | some (pre, post) => some (c :: pre, post)
      | none => none

/-- Python `sep in s` for substring containment. -/
def containsSub (sep l : List Char) : Bool := (breakOnFirst sep l).isSome

/-- Python `s.rpartition(c)[2]`: suffix after the last occurrence of `c`
(the whole string when `c` is absent). -/
def afterLastChar (l : List Char) (c : Char) : List Char :=
  (l.reverse.takeWhile (fun x => x != c)).reverse

/-- Python `s.split(c)` for a one-character separator. -/
def splitOnChar (c : Char) : List Char → List (List Char)
  | [] => [[]]
  | x :: rest =>
    let r := splitOnChar c rest
    if x == c then [] :: r
    else
      match r with
      | h :: t => (x :: h) :: t
      | [] => [[x]]

/-- Python `c.join(parts)` for a one-character separator. -/
def joinDots (parts : List (List Char)) : List Char :=
  (parts.intersperse ['.']).flatten

/-! ## `domain_utils.py` -/

def isLowerAlpha (c : Char) : Bool := 'a' ≤ c && c ≤ 'z'

def isDigitCh (c : Char) : Bool := '0' ≤ c && c ≤ '9'

def isAlnumLower (c : Char) : Bool := isLowerAlpha c || isDigitCh c

/-- The regex fragment `[a-z0-9]([a-z0-9-]*[a-z0-9])?`: a nonempty label whose
first and last characters are lowercase alphanumeric and whose inner
characters are lowercase alphanumeric or hyphens. -/
def labelMatches (l : List Char) : Bool :=
  !l.isEmpty &&
  isAlnumLower (l.headD '-') &&
  isAlnumLower (l.getLastD '-') &&
  l.all (fun x => isAlnumLower x || x == '-')

/-- The regex fragment `[a-z]{2,}`: the final (TLD) label of the domain
pattern in `is_valid_domain_format`. -/
def tldMatches (l : List Char) : Bool :=
  decide (2 ≤ l.length) && l.all isLowerAlpha

/-- Full-string match of the anchored regex
`^[a-z0-9]([a-z0-9-]*[a-z0-9])?(\.[a-z0-9]([a-z0-9-]*[a-z0-9])?)*\.[a-z]{2,}$`.
Neither the label fragment nor the TLD fragment can contain a dot, so a match
is exactly a decomposition along the dots: at least two parts, every part but
the last a label, the last part a TLD. -/
def domainRegexCore (l : List Char) : Bool :=
  let parts := splitOnChar '.' l
  decide (2 ≤ parts.length) && parts.dropLast.all labelMatches &&
    tldMatches (parts.getLastD [])

/-- Python `re.match` with a `$`-anchored pattern also matches when the final
character is a newline and the rest matches. -/
def domainRegexMatch (l : List Char) : Bool :=
  domainRegexCore l || (l.getLastD ' ' == '\n' && domainRegexCore l.dropLast)

/-- `domain_utils.is_valid_domain_format`. -/
def is_valid_domain_format (domain : String) : Bool :=
  let l := domain.data
  !l.isEmpty &&
  decide (l.length ≤ 253) &&
  l.contains '.' &&
  !(l.headD ' ' == '.') &&
  !(l.getLastD ' ' == '.') &&
  !containsSub ['.', '.'] l &&
  domainRegexMatch l

def urlSchemes : List (List Char) :=
  ["http://".data, "https://".data, "ftp://".data]

/-- `urllib.parse.urlparse(s).hostname` for an ASCII, bracket-free input that
contains `"://"`: the network location is the segment after `"://"` up to the
first `/`, `?` or `#`; user info up to the last `@` is removed, a `:port`
suffix is removed, and the result is lowercased; an empty host is `None`. -/
def urlHostname (l : List Char) : Option (List Char) :=
  match breakOnFirst "://".data l with
  | none => none
  | some (_, rest) =>
    let netloc := rest.takeWhile (fun c => c != '/' && c != '?' && c != '#')
    let hostinfo := afterLastChar netloc '@'
    let host := takeUntilChar hostinfo ':'
    if host.isEmpty then none else some (pyLowerList host)

/-- The cleanup prefix of `extract_domain_from_input`:
`user_input.strip().replace(" ", "").lower()`. -/
def cleanInput (l : List Char) : List Char :=
  pyLowerList (removeSpaces (pyStripList l))

/-- The bare-domain branch of `extract_domain_from_input`:
`domain.split("/")[0].split("?")[0].split("#")[0].split(":")[0]`. -/
def bareTrim (l : List Char) : List Char :=
  takeUntilChar (takeUntilChar (takeUntilChar (takeUntilChar l '/') '?') '#') ':'

/-- `domain_utils.extract_domain_from_input`. -/
def extract_domain_from_input (userInput : String) : Option String :=
  if userInput.data.isEmpty then none
  else
    let s := cleanInput userInput.data
    let urlBranch : Option (List Char) :=
      if urlSchemes.any (fun p => p.isPrefixOf s) then
        match urlHostname s with
        | some d => if d.isEmpty then none else some d
        | none => none
      else none
    match urlBranch with
    | some d => some ⟨d⟩
    | none =>
      let schemeBranch : Option (List Char) :=
        match breakOnFirst "://".data s with
        | some (_, rest) =>
          let dpart := takeUntilChar (takeUntilChar rest '/') ':'
          if !dpart.isEmpty && is_valid_domain_format ⟨dpart⟩ then some dpart
          else none
        | none => none
      match schemeBranch with
      | some d => some ⟨d⟩
      | none =>
        let d := bareTrim s
        if is_valid_domain_format ⟨d⟩ then some ⟨d⟩ else none

/-- The hardcoded compound second-level TLD set of `extract_root_domain`. -/
def twoPartTlds : List (List Char) :=
  ["co.uk".data, "co.nz".data, "com.au".data, "co.jp".data, "co.in".data,
   "co.za".data, "org.uk".data, "net.uk".data, "ac.uk".data, "gov.uk".data,
   "edu.au".data]

/-- `domain_utils.extract_root_domain`. -/
def extract_root_domain (domain : String) : Option String :=
  if domain.data.isEmpty || !is_valid_domain_format domain then none
  else
    let parts := splitOnChar '.' domain.data
    if parts.length ≤ 2 then some domain
    else
      let rc := joinDots (parts.drop (parts.length - 2))
      let rootCandidate :=
        if decide (3 ≤ parts.length) && twoPartTlds.contains rc then
          joinDots (parts.drop (parts.length - 3))
        else rc
      if is_valid_domain_format ⟨rootCandidate⟩ then some ⟨rootCandidate⟩
      else some domain

/-- `domain_utils.has_subdomain`. -/
def has_subdomain (domain : String) : Bool :=
  !domain.data.isEmpty && is_valid_domain_format domain &&
    decide (2 < (splitOnChar '.' domain.data).length)

/-- `domain_utils.get_fallback_domains`. -/
def get_fallback_domains (domain : String) : List String :=
  if domain.data.isEmpty then []
  else if has_subdomain domain then
    match extract_root_domain domain with
    | some root => if root != domain then [domain, root] else [domain]
    | none => [domain]
  else [domain]

/-! ## DNS environment

Each `resolver.resolve(...)` call in the Python code either returns a
(non-empty in practice, but not assumed here) rrset, raises an absence
exception (`NXDOMAIN` / `NoAnswer`), or raises a transport-level exception
(timeout, SERVFAIL, network failure). -/

inductive QueryResult (α : Type) where
  | ok (records : List α)
  | absent
  | transportError (msg : String)
deriving DecidableEq

/-- A DNSKEY resource record as the validator reads it: the wire-format RDATA
is flags (2 bytes), protocol (1), algorithm (1), then the key bytes. -/
structure DNSKEYRecord where
  flags : Nat
  protocol : Nat
  algorithm : Nat
  key : List Nat
deriving DecidableEq

/-- A DS resource record as the validator reads it. -/
structure DSRecord where
  key_tag : Nat
  algorithm : Nat
  digest_type : Nat
  digest : List Nat
deriving DecidableEq

/-- Wire-format RDATA of a DNSKEY record (`rdata = key.to_wire()`). -/
def dnskeyWire (k : DNSKEYRecord) : List Nat :=
  [k.flags / 256 % 256, k.flags % 256, k.protocol % 256, k.algorithm % 256] ++ k.key

/-- The 16-bit pair sum of `dns.dnssec.key_id`: big-endian 16-bit words, the
final odd byte shifted left by 8. -/
def pairSum : List Nat → Nat
  | a :: b :: rest => a * 256 + b + pairSum rest
  | [a] => a * 256
  | [] => 0

/-- `dns.dnssec.key_id` (RFC 4034 Appendix B): the key-tag checksum over the
wire-format RDATA, with the legacy RSA/MD5 (algorithm 1) special case. -/
def key_id (k : DNSKEYRecord) : Nat :=
  let rdata := dnskeyWire k
  if k.algorithm == 1 then
    rdata.getD (rdata.length - 3) 0 * 256 + rdata.getD (rdata.length - 2) 0
  else
    let total := pairSum rdata
    (total + total / 65536 % 65536) % 65536

/-- `DNSSECValidator._query_dnskey`: the whole `resolve` call sits in a
`try`/`except` that returns `None` on any exception, so both absence and
transport failures collapse to `none`; no exception escapes. -/
def query_dnskey (r : QueryResult DNSKEYRecord) : Option (List DNSKEYRecord) :=
  match r with
  | .ok rs => some rs
  | .absent => none
  | .transportError _ => none

/-- `DNSSECValidator._query_ds`: identical `try`/`except` shape. -/
def query_ds (r : QueryResult DSRecord) : Option (List DSRecord) :=
  match r with
  | .ok rs => some rs
  | .absent => none
  | .transportError _ => none

/-- `str(dns.name.from_text(domain))`: dnspython parses a relative name
against the root origin, so the textual form is absolute and carries a
trailing dot. -/
def domainNameText (domain : String) : String :=
  if domain.data.getLastD ' ' == '.' then domain else domain ++ "."

/-! ## Result structures (`self.results` and its nested dicts) -/

/-- One entry of `results['records']['dnskey']`. -/
structure StoredDNSKEY where
  zone : String
  flags : Nat
  protocol : Nat
  algorithm : Nat
  key_tag : Nat
deriving DecidableEq

/-- One entry of `results['records']['ds']` (`digest` stored as hex text). -/
structure StoredDS where
  zone : String
  key_tag : Nat
  algorithm : Nat
  digest_type : Nat
  digest : String
deriving DecidableEq

/-- One entry of `results['chain_of_trust']`; keys the Python dict omits are
`none`. -/
structure ChainLink where
  zone : String
  status : String
  algorithm : Option Nat := none
  key_tag : Option Nat := none
  error : Option String := none
deriving DecidableEq

/-- `results['records']`. `rrsig` is only filled by the detailed-analysis
path (`_query_rrsig`), which is outside the modelled entry points, so it
stays empty here. -/
structure RecordsState where
  dnskey : List StoredDNSKEY := []
  ds : List StoredDS := []
  rrsig : List String := []
deriving DecidableEq

/-- `results['tlsa_summary']` as built by `_add_tlsa_summary`. -/
structure TLSASummary where
  status : String
  records_found : Nat
  dane_status : String
  message : String
deriving DecidableEq

/-- The `self.results` dict of `DNSSECValidator`. -/
structure ValidationResults where
  domain : String
  status : String
  validation_time : String
  chain_of_trust : List ChainLink
  records : RecordsState
  tlsa_summary : Option TLSASummary
  errors : List String
deriving DecidableEq

/-- The DNS responses one `DNSSECValidator` run observes. -/
structure ChainEnv where
  dnskeyResponse : QueryResult DNSKEYRecord
  dsResponse : QueryResult DSRecord
deriving DecidableEq

/-- The stored form of one DNSKEY record (`results['records']['dnskey']`). -/
def storeDNSKEY (zone : String) (k : DNSKEYRecord) : StoredDNSKEY :=
  { zone := zone, flags := k.flags, protocol := k.protocol,
    algorithm := k.algorithm, key_tag := key_id k }

/-- The stored form of one DS record (`results['records']['ds']`). -/
def storeDS (zone : String) (d : DSRecord) : StoredDS :=
  { zone := zone, key_tag := d.key_tag, algorithm := d.algorithm,
    digest_type := d.digest_type, digest := bytesToHex d.digest }

/-- `DNSSECValidator._validate_chain_of_trust`, acting on the results record
it mutates; returns the boolean the Python method returns together with the
updated results. `if not dnskey_rrset` treats `None` and the empty rrset
alike, hence the `getD []`. -/
def validate_chain_of_trust (env : ChainEnv) (domain : String)
    (r : ValidationResults) : Bool × ValidationResults :=
  let zone := domainNameText domain
  let dnskeyRrset := (query_dnskey env.dnskeyResponse).getD []
  if dnskeyRrset.isEmpty then
    (false,
     { r with
       status := "insecure",
       chain_of_trust := r.chain_of_trust ++
         [{ zone := zone, status := "insecure",
            error := some "No DNSKEY records found - domain is not signed" }] })
  else
    let r :=
      { r with
        records :=
          { r.records with
            dnskey := r.records.dnskey ++ dnskeyRrset.map (storeDNSKEY zone) } }
    let dsRrset := (query_ds env.dsResponse).getD []
    if dsRrset.isEmpty then
      (false,
       { r with
         status := "invalid",
         chain_of_trust := r.chain_of_trust ++
           [{ zone := zone, status := "invalid",
              error := some "Domain is signed but has no DS record in parent zone - chain of trust broken" }] })
    else
      let r :=
        { r with
          records :=
            { r.records with
              ds := r.records.ds ++ dsRrset.map (storeDS zone) } }
      let dsKeyTags := dsRrset.map (fun d => d.key_tag)
      let dnskeyTags := dnskeyRrset.map key_id
      if !dsKeyTags.any (fun t => dnskeyTags.contains t) then
        (false,
         { r with
           status := "invalid",
           chain_of_trust := r.chain_of_trust ++
             [{ zone := zone, status := "invalid",
                error := some "DS records do not match any DNSKEY records" }] })
      else
        (true,
         { r with
           chain_of_trust := r.chain_of_trust ++
             [{ zone := zone, status := "valid",
                algorithm := some (dnskeyRrset.headD ⟨0, 0, 0, []⟩).algorithm,
                key_tag := some (key_id (dnskeyRrset.headD ⟨0, 0, 0, []⟩)) }] })

/-! ## `tlsa_validator.py` -/

/-- A TLSA resource record as `_query_tlsa_records` stores it
(`cert_assoc_data` is `rr.cert.hex()`). -/
structure TLSARecord where
  usage : Nat
  selector : Nat
  mtype : Nat
  cert_assoc_data : String
deriving DecidableEq

/-- The certificate fields `_validate_single_association` reads:
`cert_info['der_data']` (leaf certificate DER bytes) and
`cert_info['public_key_info']` (DER SubjectPublicKeyInfo of its public key). -/
structure CertInfo where
  der_data : List Nat
  public_key_info : List Nat
deriving DecidableEq

/-- The `hashlib` hex-digest primitives, external to the repository. -/
structure HashImpl where
  sha256hex : List Nat → String
  sha512hex : List Nat → String

/-- The external observations one `TLSAValidator.validate_tlsa` run makes:
the TLSA DNS answer and the outcome of `_get_tls_certificate`. -/
structure TLSAEnv where
  tlsaResponse : QueryResult TLSARecord
  certFetch : Except String CertInfo

/-- `TLSAValidator._query_tlsa_records`: `NXDOMAIN` and `NoAnswer` are caught
and return `[]`; any other exception is logged and re-raised, which the
`Except.error` branch carries to the caller. -/
def query_tlsa_records (r : QueryResult TLSARecord) :
    Except String (List TLSARecord) :=
  match r with
  | .ok rs => .ok rs
  | .absent => .ok []
  | .transportError msg => .error msg

/-- One element of `valid_associations` / `invalid_associations`. -/
structure AssociationResult where
  tlsa_record : TLSARecord
  valid : Bool
  reason : String
  computed_hash : String
  expected_hash : String
deriving DecidableEq

/-- `TLSAValidator._validate_single_association`. -/
def validate_single_association (H : HashImpl) (rec : TLSARecord)
    (cert : CertInfo) : AssociationResult :=
  let base : AssociationResult :=
    { tlsa_record := rec, valid := false, reason := "", computed_hash := "",
      expected_hash := rec.cert_assoc_data }
  let dataToHash : Option (List Nat) :=
    if rec.selector == 0 then some cert.der_data
    else if rec.selector == 1 then some cert.public_key_info
    else none
  match dataToHash with
  | none =>
    { base with reason := "Unsupported selector type: " ++ toString rec.selector }
  | some data =>
    let computed : Option String :=
      if rec.mtype == 0 then some (bytesToHex data)
      else if rec.mtype == 1 then some (H.sha256hex data)
      else if rec.mtype == 2 then some (H.sha512hex data)
      else none
    match computed with
    | none =>
      { base with reason := "Unsupported matching type: " ++ toString rec.mtype }
    | some computedData =>
      if pyLower computedData == pyLower rec.cert_assoc_data then
        { base with
          valid := true, computed_hash := computedData,
          reason := "Certificate association matches TLSA record" }
      else
        { base with
          valid := false, computed_hash := computedData,
          reason := "Certificate association does not match TLSA record" }

/-- The `dane_validation` sub-dict (the float `success_rate` summary entry is
presentation only and not modelled). -/
structure DaneValidation where
  valid_associations : List AssociationResult
  invalid_associations : List AssociationResult
  status : String
deriving DecidableEq

/-- `TLSAValidator._validate_dane_associations`: each record's association
result is appended to the valid or invalid list in input order, then the
status is derived from the two lists. -/
def validate_dane_associations (H : HashImpl) (records : List TLSARecord)
    (cert : CertInfo) : DaneValidation :=
  let results := records.map (fun rec => validate_single_association H rec cert)
  let valids := results.filter (fun a => a.valid)
  let invalids := results.filter (fun a => !a.valid)
  { valid_associations := valids,
    invalid_associations := invalids,
    status :=
      if !valids.isEmpty then "valid"
      else if !invalids.isEmpty then "invalid"
      else "no_associations" }

/-- The result dict of `validate_tlsa` (timing fields, which read the clock,
are not modelled). -/
structure TLSAResult where
  domain : String
  port : Nat
  protocol : String
  tlsa_status : String
  tlsa_records : List TLSARecord
  certificate_info : Option CertInfo
  dane_validation : DaneValidation
  errors : List String
  warnings : List String
deriving DecidableEq

/-- `TLSAValidator.validate_tlsa`. -/
def validate_tlsa (H : HashImpl) (env : TLSAEnv) (domain : String)
    (port : Nat := 443) (protocol : String := "tcp") : TLSAResult :=
  let base : TLSAResult :=
    { domain := domain, port := port, protocol := protocol,
      tlsa_status := "unknown", tlsa_records := [], certificate_info := none,
      dane_validation :=
        { valid_associations := [], invalid_associations := [],
          status := "unknown" },
      errors := [], warnings := [] }
  match query_tlsa_records env.tlsaResponse with
  | .error msg =>
    { base with
      tlsa_status := "error",
      errors := base.errors ++ ["TLSA validation failed: " ++ msg] }
  | .ok tlsaRecords =>
    if tlsaRecords.isEmpty then
      { base with
        tlsa_status := "no_records",
        warnings := base.warnings ++
          ["No TLSA records found for _" ++ toString port ++ "._" ++ protocol
            ++ "." ++ domain] }
    else
      let base :=
        { base with
          tlsa_records := tlsaRecords,
          tlsa_status := "records_found" }
      match env.certFetch with
      | .error msg =>
        { base with
          errors := base.errors ++ ["TLS certificate retrieval failed: " ++ msg],
          tlsa_status := "cert_unavailable" }
      | .ok certInfo =>
        let validationResults := validate_dane_associations H tlsaRecords certInfo
        { base with
          certificate_info := some certInfo,
          dane_validation := validationResults,
          tlsa_status :=
            if !validationResults.valid_associations.isEmpty then "valid"
            else if !validationResults.invalid_associations.isEmpty then "invalid"
            else "no_matches" }

/-! ## `dnssec_validator.py` entry points -/

/-- `DNSSECValidator._add_tlsa_summary`: runs the quick TLSA check and stores
a summary; its own `try`/`except` keeps any failure away from the DNSSEC
verdict (the modelled check is total, so the except branch is dead). -/
def add_tlsa_summary (H : HashImpl) (env : TLSAEnv) (r : ValidationResults) :
    ValidationResults :=
  let t := validate_tlsa H env r.domain 443 "tcp"
  let message :=
    if t.tlsa_status == "valid" then "✅ DANE/TLSA validation successful"
    else if t.tlsa_status == "invalid" then "❌ DANE/TLSA validation failed"
    else if t.tlsa_status == "no_records" then
      "💡 No TLSA records found - consider implementing DANE"
    else if t.tlsa_status == "cert_unavailable" then
      "⚠️ Could not retrieve TLS certificate"
    else "❓ TLSA status unknown"
  { r with
    tlsa_summary := some
      { status := t.tlsa_status, records_found := t.tlsa_records.length,
        dane_status := t.dane_validation.status, message := message } }

/-- Everything a single `DNSSECValidator` run observes from the outside. -/
structure DomainEnv where
  chain : ChainEnv
  tlsa : TLSAEnv

/-- The `self.results` value built by `DNSSECValidator.__init__` (`now` is
`datetime.utcnow().isoformat()`). -/
def initResults (domain now : String) : ValidationResults :=
  { domain := domain, status := "unknown", validation_time := now,
    chain_of_trust := [], records := {}, tlsa_summary := none, errors := [] }

/-- `DNSSECValidator.validate`: runs the chain check, promotes the boolean to
a status (coercing a leftover `"unknown"` to `"invalid"`), then attaches the
non-blocking TLSA summary. The modelled chain check is total, so the
`except` branch that would set status `"error"` is unreachable here. -/
def validate (H : HashImpl) (env : DomainEnv) (domain now : String) :
    ValidationResults :=
  let checked := validate_chain_of_trust env.chain domain (initResults domain now)
  let r :=
    if checked.1 then { checked.2 with status := "valid" }
    else if checked.2.status == "unknown" then { checked.2 with status := "invalid" }
    else checked.2
  add_tlsa_summary H env.tlsa r

/-! ## `validate_with_fallback` -/

/-- One entry of `results['validation_attempts']`. -/
structure AttemptInfo where
  domain : String
  attempt_type : String
  result : ValidationResults
deriving DecidableEq

/-- One entry of `fallback_info['attempts']`. -/
structure AttemptSummary where
  domain : String
  attempt_type : String
  status : String
  errors : List String
deriving DecidableEq

/-- The `fallback_info` dict merged into the final result. -/
structure FallbackInfo where
  original_input : String
  requested_domain : String
  validated_domain : String
  fallback_used : Bool
  total_attempts : Nat
  attempts : Option (List AttemptSummary)
deriving DecidableEq

/-- The final result of `validate_with_fallback`: the chosen validation
result plus the `fallback_info` key added to it. -/
structure FallbackOutcome where
  result : ValidationResults
  fallback_info : FallbackInfo
deriving DecidableEq

/-- The `for i, domain in enumerate(domains_to_try)` loop: returns the
recorded attempts and, when a candidate's result was chosen, that result with
its `is_fallback` flag. Statuses `valid`, `insecure` and `error` break out;
`invalid` continues while candidates remain; the last candidate always
breaks. -/
def run_fallback_attempts (H : HashImpl) (envOf : String → DomainEnv)
    (now : String) :
    List String → Nat → List AttemptInfo × Option (ValidationResults × Bool)
  | [], _ => ([], none)
  | d :: rest, i =>
    let isFallback := !(i == 0)
    let att : AttemptInfo :=
      { domain := d,
        attempt_type := if isFallback then "fallback" else "primary",
        result := validate H (envOf d) d now }
    if att.result.status == "valid" then ([att], some (att.result, isFallback))
    else if att.result.status == "insecure" || att.result.status == "error" then
      ([att], some (att.result, isFallback))
    else if att.result.status == "invalid" && !rest.isEmpty then
      let rec_result := run_fallback_attempts H envOf now rest (i + 1)
      (att :: rec_result.1, rec_result.2)
    else ([att], some (att.result, isFallback))

/-- `DNSSECValidator.validate_with_fallback`. Each loop iteration constructs
a fresh `DNSSECValidator(domain)`, so the environment is a function of the
candidate domain. The per-attempt summary list is attached only when
fallback fired or more than one attempt happened. -/
def validate_with_fallback (H : HashImpl) (envOf : String → DomainEnv)
    (domain : String) (originalInput : Option String) (now : String) :
    FallbackOutcome :=
  let domainsToTry := get_fallback_domains domain
  let origInput := originalInput.getD domain
  let ran := run_fallback_attempts H envOf now domainsToTry 0
  let summaries := ran.1.map (fun a =>
    { domain := a.domain, attempt_type := a.attempt_type,
      status := a.result.status, errors := a.result.errors : AttemptSummary })
  match ran.2 with
  | some final =>
    { result := final.1,
      fallback_info :=
        { original_input := origInput, requested_domain := domain,
          validated_domain := final.1.domain, fallback_used := final.2,
          total_attempts := ran.1.length,
          attempts :=
            if final.2 || decide (1 < ran.1.length) then some summaries
            else none } }
  | none =>
    { result :=
        { domain := domain, status := "error", validation_time := now,
          chain_of_trust := [], records := {}, tlsa_summary := none,
          errors := ["All validation attempts failed"] },
      fallback_info :=
        { original_input := origInput, requested_domain := domain,
          validated_domain := domain, fallback_used := true,
          total_attempts := ran.1.length, attempts := some summaries } }

/-! ## Spec-side definitions used by refinement claims -/

/-- Spec-side reading of the selector rule: 0 selects the full DER
certificate bytes, 1 the DER SubjectPublicKeyInfo, anything else is
unsupported. -/
def specSelectedData (cert : CertInfo) (selector : Nat) : Option (List Nat) :=
  if selector = 0 then some cert.der_data
  else if selector = 1 then some cert.public_key_info
  else none

/-- Spec-side reading of the matching-type rule applied to the selected
data: 0 is the raw hex of the bytes (no hash), 1 the SHA-256 hex digest,
2 the SHA-512 hex digest, anything else unsupported. -/
def specAssociationHex (H : HashImpl) (cert : CertInfo)
    (selector mtype : Nat) : Option String :=
  (specSelectedData cert selector).bind fun data =>
    if mtype = 0 then some (bytesToHex data)
    else if mtype = 1 then some (H.sha256hex data)
    else if mtype = 2 then some (H.sha512hex data)
    else none

/-- The DomainName format exactly as the specification words it: at most 253
characters, no trailing dot, minimum two labels, each label matching
`[a-z0-9]([a-z0-9-]*[a-z0-9])?`, last label of length at least 2. -/
def claimDomainFormat (s : String) : Bool :=
  let parts := splitOnChar '.' s.data
  decide (s.data.length ≤ 253) && !(s.data.getLastD ' ' == '.') &&
  decide (2 ≤ parts.length) && parts.all labelMatches &&
  decide (2 ≤ (parts.getLastD []).length)

/-- The domain format the code actually accepts: at most 253 characters, at
least two dot-separated labels, every label but the last matching
`[a-z0-9]([a-z0-9-]*[a-z0-9])?`, and the final label matching `[a-z]{2,}`
(letters only, length at least 2). -/
def amendedDomainFormat (s : String) : Bool :=
  let parts := splitOnChar '.' s.data
  decide (s.data.length ≤ 253) && decide (2 ≤ parts.length) &&
  parts.dropLast.all labelMatches && tldMatches (parts.getLastD [])

/-! ## Fixture values used by closed (witness / counterexample) theorems -/

/-- A stub hash capability for closed instances; the chain-of-trust claims
never reach the hash functions. -/
def hashStub : HashImpl := ⟨fun _ => "", fun _ => ""⟩

/-- A quiet TLSA environment: no TLSA records, no reachable TLS endpoint. -/
def tlsaQuiet : TLSAEnv := ⟨.absent, .error "no cert"⟩

/-- A sample KSK-flagged DNSKEY record; its key tag is 1038. -/
def ksk13 : DNSKEYRecord := ⟨257, 3, 13, []⟩

/-- Concrete environment: DNSKEY present but DS absent, so the chain verdict
is `invalid`. -/
def envChainInvalidDS : DomainEnv := ⟨⟨.ok [ksk13], .absent⟩, tlsaQuiet⟩

/-- Concrete environment: DNSKEY and a matching DS record, so the chain
verdict is `valid`. -/
def envChainValid : DomainEnv :=
  ⟨⟨.ok [ksk13], .ok [⟨1038, 13, 2, []⟩]⟩, tlsaQuiet⟩

/-- The C7 scenario: the subdomain fails with `invalid`, the root domain
validates. -/
def envOfScenario : String → DomainEnv := fun d =>
  if d == "www.example.com" then envChainInvalidDS else envChainValid

/-! ## Projection lemmas: the TLSA summary step only writes
`tlsa_summary` -/

@[simp]
theorem add_tlsa_summary_status (H : HashImpl) (env : TLSAEnv)
    (r : ValidationResults) : (add_tlsa_summary H env r).status = r.status := rfl

@[simp]
theorem add_tlsa_summary_chain (H : HashImpl) (env : TLSAEnv)
    (r : ValidationResults) :
    (add_tlsa_summary H env r).chain_of_trust = r.chain_of_trust := rfl

@[simp]
theorem add_tlsa_summary_records (H : HashImpl) (env : TLSAEnv)
    (r : ValidationResults) : (add_tlsa_summary H env r).records = r.records := rfl

@[simp]
theorem add_tlsa_summary_errors (H : HashImpl) (env : TLSAEnv)
    (r : ValidationResults) : (add_tlsa_summary H env r).errors = r.errors := rfl

@[simp]
theorem add_tlsa_summary_time (H : HashImpl) (env : TLSAEnv)
    (r : ValidationResults) :
    (add_tlsa_summary H env r).validation_time = r.validation_time := rfl

/-! ## Claim C1: DS/DNSKEY key-tag intersection decides the verdict -/

/-- The key-tag comparison of step 3 of `_validate_chain_of_trust`, read as a
set intersection: the Boolean the code computes is true exactly when some DS
key tag equals some computed DNSKEY key tag. -/
theorem ds_any_contains_iff (ds : List DSRecord) (ks : List DNSKEYRecord) :
    ((ds.map fun x => x.key_tag).any fun t => (ks.map key_id).contains t) = true ↔
    ∃ d ∈ ds, ∃ k ∈ ks, d.key_tag = key_id k := by
  rw [List.any_eq_true]
  constructor
  · rintro ⟨t, ht, hc⟩
    obtain ⟨x, hx, rfl⟩ := List.mem_map.mp ht
    obtain ⟨y, hy, h2⟩ := List.mem_map.mp (List.mem_of_elem_eq_true hc)
    exact ⟨x, hx, y, hy, h2.symm⟩
  · rintro ⟨x, hx, y, hy, hxy⟩
    refine ⟨x.key_tag, List.mem_map_of_mem (fun z => z.key_tag) hx, ?_⟩
    exact List.elem_eq_true_of_mem (hxy ▸ List.mem_map_of_mem key_id hy)

/-- C1: when the DNSKEY query and the DS query both return non-empty record
sets, the validation status is `"valid"` iff some DS key tag equals the
computed key tag of some DNSKEY; on a non-empty intersection the single
chain-of-trust link is valid and carries the first DNSKEY's algorithm and
key tag, and on an empty intersection the status is `"invalid"` with chain
error "DS records do not match any DNSKEY records". -/
theorem chain_status_matches_keytag_intersection
    (H : HashImpl) (tlsaEnv : TLSAEnv) (domain now : String)
    (ks : List DNSKEYRecord) (ds : List DSRecord)
    (hk : ks ≠ []) (hd : ds ≠ []) :
    ((validate H ⟨⟨.ok ks, .ok ds⟩, tlsaEnv⟩ domain now).status = "valid" ↔
      ∃ d ∈ ds, ∃ k ∈ ks, d.key_tag = key_id k) ∧
    ((∃ d ∈ ds, ∃ k ∈ ks, d.key_tag = key_id k) →
      (validate H ⟨⟨.ok ks, .ok ds⟩, tlsaEnv⟩ domain now).chain_of_trust =
        [{ zone := domainNameText domain, status := "valid",
           algorithm := some (ks.headD ⟨0, 0, 0, []⟩).algorithm,
           key_tag := some (key_id (ks.headD ⟨0, 0, 0, []⟩)) }]) ∧
    ((¬ ∃ d ∈ ds, ∃ k ∈ ks, d.key_tag = key_id k) →
      (validate H ⟨⟨.ok ks, .ok ds⟩, tlsaEnv⟩ domain now).status = "invalid" ∧
      (validate H ⟨⟨.ok ks, .ok ds⟩, tlsaEnv⟩ domain now).chain_of_trust =
        [{ zone := domainNameText domain, status := "invalid",
           error := some "DS records do not match any DNSKEY records" }]) := by
  obtain ⟨k, ks', hks⟩ := List.exists_cons_of_ne_nil hk
  obtain ⟨d, ds', hds⟩ := List.exists_cons_of_ne_nil hd
  subst hks hds
  by_cases hcond : ∃ x ∈ d :: ds', ∃ y ∈ k :: ks', x.key_tag = key_id y
  · have hb := (ds_any_contains_iff (d :: ds') (k :: ks')).mpr hcond
    simp only [validate, validate_chain_of_trust, query_dnskey, query_ds,
      initResults, Option.getD_some, List.isEmpty_cons, Bool.false_eq_true,
      if_false, hb, Bool.not_true, add_tlsa_summary_status,
      add_tlsa_summary_chain, List.headD_cons]
    exact ⟨⟨fun _ => hcond, fun _ => rfl⟩, fun _ => rfl,
      fun hn => absurd hcond hn⟩
  · have hb : (((d :: ds').map fun x => x.key_tag).any
        fun t => ((k :: ks').map key_id).contains t) = false := by
      rw [Bool.eq_false_iff]
      intro hany
      exact hcond ((ds_any_contains_iff (d :: ds') (k :: ks')).mp hany)
    simp only [validate, validate_chain_of_trust, query_dnskey, query_ds,
      initResults, Option.getD_some, List.isEmpty_cons, Bool.false_eq_true,
      if_false, hb, Bool.not_false, if_true, add_tlsa_summary_status,
      add_tlsa_summary_chain]
    simp [hcond]
    simpa using hcond

/-- Witness for C1 at a concrete environment: one DNSKEY (tag 1038) and one
matching DS record produce a valid verdict. -/
theorem chain_status_matches_keytag_intersection_witness :
    ((⟨1038, 13, 2, [171]⟩ : DSRecord) :: [] ≠ [] ∧ [ksk13] ≠ []) ∧
    (validate hashStub ⟨⟨.ok [ksk13], .ok [⟨1038, 13, 2, [171]⟩]⟩, tlsaQuiet⟩
      "bondit.dk" "t").status = "valid" := by
  refine ⟨⟨by decide, by decide⟩, ?_⟩
  exact (chain_status_matches_keytag_intersection hashStub tlsaQuiet "bondit.dk" "t"
    [ksk13] [⟨1038, 13, 2, [171]⟩] (by decide) (by decide)).1.mpr
    ⟨⟨1038, 13, 2, [171]⟩, by decide, ksk13, by decide, by decide⟩

/-! ## Claim C2: missing DNSKEY yields an insecure verdict

The claim's chain link names `zone: domain`, but the code stores
`str(self.domain_name)`, the absolute dnspython name, which carries a
trailing dot — `"example.com."`, not `"example.com"`. -/

/-- Counterexample to C2 as stated: with no DNSKEY answer for
`"example.com"`, the single chain link's zone is `"example.com."` (the
absolute name text), not the domain `"example.com"` itself. -/
theorem chain_insecure_zone_counterexample :
    (validate hashStub ⟨⟨.absent, .absent⟩, tlsaQuiet⟩ "example.com" "t").chain_of_trust =
      [{ zone := "example.com.", status := "insecure",
         error := some "No DNSKEY records found - domain is not signed" }] ∧
    "example.com." ≠ "example.com" := by
  exact ⟨rfl, by decide⟩

/-- C2 (amended): for every domain whose DNSKEY query returns no records,
the status is `"insecure"` and the chain of trust is exactly one link whose
zone is the absolute form of the domain (trailing dot appended), with status
`"insecure"` and error "No DNSKEY records found - domain is not signed". -/
theorem chain_insecure_on_missing_dnskey
    (H : HashImpl) (tlsaEnv : TLSAEnv) (dkr : QueryResult DNSKEYRecord)
    (dsr : QueryResult DSRecord) (domain now : String)
    (h : query_dnskey dkr = none ∨ query_dnskey dkr = some []) :
    (validate H ⟨⟨dkr, dsr⟩, tlsaEnv⟩ domain now).status = "insecure" ∧
    (validate H ⟨⟨dkr, dsr⟩, tlsaEnv⟩ domain now).chain_of_trust =
      [{ zone := domainNameText domain, status := "insecure",
         error := some "No DNSKEY records found - domain is not signed" }] := by
  rcases h with h | h <;>
    simp [validate, validate_chain_of_trust, h, initResults]

/-- Witness for the amended C2 at a concrete environment. -/
theorem chain_insecure_on_missing_dnskey_witness :
    (query_dnskey .absent = none ∨
      query_dnskey (QueryResult.absent (α := DNSKEYRecord)) = some []) ∧
    (validate hashStub ⟨⟨.absent, .absent⟩, tlsaQuiet⟩ "example.com" "t").status =
      "insecure" :=
  ⟨Or.inl rfl,
    (chain_insecure_on_missing_dnskey hashStub tlsaQuiet .absent .absent
      "example.com" "t" (Or.inl rfl)).1⟩

/-! ## Claim C3: DNSKEY present but no DS record -/

/-- C3: when the DNSKEY query returns at least one record and the DS query
returns no records, the status is `"invalid"`, all returned DNSKEY records
are stored in `records.dnskey`, and the chain of trust is exactly one
invalid link with error "Domain is signed but has no DS record in parent
zone - chain of trust broken". -/
theorem chain_invalid_on_missing_ds
    (H : HashImpl) (tlsaEnv : TLSAEnv) (ks : List DNSKEYRecord)
    (dsr : QueryResult DSRecord) (domain now : String) (hk : ks ≠ [])
    (hd : query_ds dsr = none ∨ query_ds dsr = some []) :
    (validate H ⟨⟨.ok ks, dsr⟩, tlsaEnv⟩ domain now).status = "invalid" ∧
    (validate H ⟨⟨.ok ks, dsr⟩, tlsaEnv⟩ domain now).records.dnskey =
      ks.map (storeDNSKEY (domainNameText domain)) ∧
    (validate H ⟨⟨.ok ks, dsr⟩, tlsaEnv⟩ domain now).chain_of_trust =
      [{ zone := domainNameText domain, status := "invalid",
         error := some "Domain is signed but has no DS record in parent zone - chain of trust broken" }] := by
  obtain ⟨k, ks', hks⟩ := List.exists_cons_of_ne_nil hk
  subst hks
  rcases hd with h | h <;>
    simp [validate, validate_chain_of_trust, query_dnskey, h, initResults]

/-- Witness for C3 at a concrete environment. -/
theorem chain_invalid_on_missing_ds_witness :
    ([ksk13] ≠ [] ∧
      query_ds (QueryResult.absent (α := DSRecord)) = none) ∧
    (validate hashStub ⟨⟨.ok [ksk13], .absent⟩, tlsaQuiet⟩ "example.com" "t").records.dnskey =
      [⟨"example.com.", 257, 3, 13, 1038⟩] :=
  ⟨⟨by decide, rfl⟩, by
    rw [(chain_invalid_on_missing_ds hashStub tlsaQuiet [ksk13] .absent
      "example.com" "t" (by decide) (Or.inl rfl)).2.1]
    decide⟩

/-! ## Claim C9: the verdict is a deterministic function of the responses -/

/-- The chain check never reads `validation_time`: shifting the timestamp of
its input results record shifts only the timestamp of its output. -/
theorem chain_time_shift (env : ChainEnv) (domain : String)
    (r : ValidationResults) (t : String) :
    validate_chain_of_trust env domain { r with validation_time := t } =
      ((validate_chain_of_trust env domain r).1,
       { (validate_chain_of_trust env domain r).2 with validation_time := t }) := by
  unfold validate_chain_of_trust
  by_cases h1 : ((query_dnskey env.dnskeyResponse).getD []).isEmpty = true
  · simp only [h1]
    rfl
  · rw [Bool.not_eq_true] at h1
    by_cases h2 : ((query_ds env.dsResponse).getD []).isEmpty = true
    · simp only [h1, h2]
      rfl
    · rw [Bool.not_eq_true] at h2
      by_cases h3 : ((((query_ds env.dsResponse).getD []).map
          fun d => d.key_tag).any
          fun t => (((query_dnskey env.dnskeyResponse).getD []).map
            key_id).contains t) = true
      · simp only [h1, h2, h3]
        rfl
      · rw [Bool.not_eq_true] at h3
        simp only [h1, h2, h3]
        rfl

/-- The timestamp is the only part of the result that depends on the clock. -/
theorem validate_time_shift (H : HashImpl) (env : DomainEnv)
    (domain t1 t2 : String) :
    validate H env domain t1 =
      { validate H env domain t2 with validation_time := t1 } := by
  unfold validate
  rw [show initResults domain t1 =
      { initResults domain t2 with validation_time := t1 } from rfl,
    chain_time_shift]
  rcases h : validate_chain_of_trust env.chain domain (initResults domain t2)
    with ⟨b, x⟩
  cases b
  · cases hs : x.status == "unknown" <;> simp [add_tlsa_summary, hs]
  · rfl

/-- C9: with a fixed assignment of DNS and TLS responses, two validation
runs that differ only in their wall-clock timestamp agree on `status`,
`chain_of_trust` and `records` (only `validation_time` may differ). -/
theorem validate_deterministic (H : HashImpl) (env : DomainEnv)
    (domain t1 t2 : String) :
    (validate H env domain t1).status = (validate H env domain t2).status ∧
    (validate H env domain t1).chain_of_trust =
      (validate H env domain t2).chain_of_trust ∧
    (validate H env domain t1).records = (validate H env domain t2).records := by
  rw [validate_time_shift H env domain t1 t2]
  exact ⟨rfl, rfl, rfl⟩

/-! ## Claim C10: the status invariant of `validate` -/

/-- When the chain check returns `False` it has always set the status to
`"insecure"` or `"invalid"`; the `"unknown"` initial value never survives a
failed check in the modelled (exception-free) paths. -/
theorem chain_false_status (env : ChainEnv) (domain : String)
    (r : ValidationResults)
    (h : (validate_chain_of_trust env domain r).1 = false) :
    (validate_chain_of_trust env domain r).2.status = "insecure" ∨
    (validate_chain_of_trust env domain r).2.status = "invalid" := by
  unfold validate_chain_of_trust at h ⊢
  by_cases h1 : ((query_dnskey env.dnskeyResponse).getD []).isEmpty = true
  · simp only [h1]
    exact Or.inl rfl
  · rw [Bool.not_eq_true] at h1
    by_cases h2 : ((query_ds env.dsResponse).getD []).isEmpty = true
    · simp only [h1, h2]
      exact Or.inr rfl
    · rw [Bool.not_eq_true] at h2
      by_cases h3 : ((((query_ds env.dsResponse).getD []).map
          fun d => d.key_tag).any
          fun t => (((query_dnskey env.dnskeyResponse).getD []).map
            key_id).contains t) = true
      · simp only [h1, h2, h3] at h
        simp at h
      · rw [Bool.not_eq_true] at h3
        simp only [h1, h2, h3]
        exact Or.inr rfl

/-- C10: on every path of `validate` the returned status is one of
`"valid"`, `"invalid"`, `"insecure"`, `"error"`; the constructor's initial
`"unknown"` never escapes (a failed chain check that left it would be
coerced to `"invalid"`). -/
theorem validate_status_taxonomy (H : HashImpl) (env : DomainEnv)
    (domain now : String) :
    (validate H env domain now).status ∈
      (["valid", "invalid", "insecure", "error"] : List String) ∧
    (validate H env domain now).status ≠ "unknown" := by
  unfold validate
  rcases hb : (validate_chain_of_trust env.chain domain
    (initResults domain now)).1 with _ | _
  · rcases chain_false_status env.chain domain (initResults domain now) hb
      with hs | hs <;>
      · rcases h : validate_chain_of_trust env.chain domain
          (initResults domain now) with ⟨b, x⟩
        rw [h] at hb hs
        subst hb
        simp_all
  · rcases h : validate_chain_of_trust env.chain domain
      (initResults domain now) with ⟨b, x⟩
    rw [h] at hb
    subst hb
    simp_all

/-! ## Claim C4: the TLSA association rule (RFC 6698 selector / matching
type) -/



/-- C4: a TLSA association is valid exactly when the selector and matching
type are supported and the computed hex string equals the record's
certAssociationData case-insensitively; an unsupported selector or matching
type yields an invalid association, and a supported-but-mismatching one
yields reason "Certificate association does not match TLSA record". -/
theorem association_follows_selector_matching_rule (H : HashImpl)
    (rec : TLSARecord) (cert : CertInfo) :
    ((validate_single_association H rec cert).valid = true ↔
      ∃ hex, specAssociationHex H cert rec.selector rec.mtype = some hex ∧
        pyLower hex = pyLower rec.cert_assoc_data) ∧
    (specAssociationHex H cert rec.selector rec.mtype = none →
      (validate_single_association H rec cert).valid = false) ∧
    (∀ hex, specAssociationHex H cert rec.selector rec.mtype = some hex →
      pyLower hex ≠ pyLower rec.cert_assoc_data →
      (validate_single_association H rec cert).valid = false ∧
      (validate_single_association H rec cert).reason =
        "Certificate association does not match TLSA record") := by
  unfold validate_single_association specAssociationHex specSelectedData
  by_cases h0 : rec.selector = 0 <;> by_cases h1 : rec.selector = 1 <;>
    by_cases m0 : rec.mtype = 0 <;> by_cases m1 : rec.mtype = 1 <;>
    by_cases m2 : rec.mtype = 2 <;>
    simp_all <;>
    split_ifs <;>
    simp_all

/-- Witness for C4 at a concrete record and certificate: selector 0,
matching type 0, association data `"ff"` against a certificate whose raw
hex is `"ab"`; the mismatch reason is reported. -/
theorem association_follows_selector_matching_rule_witness :
    (specAssociationHex hashStub ⟨[171], []⟩ 0 0 = some "ab" ∧
      pyLower "ab" ≠ pyLower "ff") ∧
    (validate_single_association hashStub ⟨3, 0, 0, "ff"⟩ ⟨[171], []⟩).reason =
      "Certificate association does not match TLSA record" := by
  refine ⟨⟨by decide, by decide⟩, ?_⟩
  exact ((association_follows_selector_matching_rule hashStub ⟨3, 0, 0, "ff"⟩
    ⟨[171], []⟩).2.2 "ab" (by decide) (by decide)).2

/-! ## Claim C5: aggregation of TLSA association results -/

/-- C5: when TLSA records were found and the certificate was fetched, the
overall tlsa_status is "valid" if at least one association is valid,
otherwise "invalid" if at least one association is invalid, otherwise
"no_matches" with inner dane status "no_associations". -/
theorem tlsa_status_aggregation (H : HashImpl) (records : List TLSARecord)
    (cert : CertInfo) (domain : String) (port : Nat) (protocol : String)
    (hne : records ≠ []) :
    ((∃ a ∈ records.map fun rec => validate_single_association H rec cert,
        a.valid = true) →
      (validate_tlsa H ⟨.ok records, .ok cert⟩ domain port protocol).tlsa_status =
        "valid") ∧
    ((¬ ∃ a ∈ records.map fun rec => validate_single_association H rec cert,
        a.valid = true) →
      (∃ a ∈ records.map fun rec => validate_single_association H rec cert,
        a.valid = false) →
      (validate_tlsa H ⟨.ok records, .ok cert⟩ domain port protocol).tlsa_status =
        "invalid") ∧
    ((¬ ∃ a ∈ records.map fun rec => validate_single_association H rec cert,
        a.valid = true) →
      (¬ ∃ a ∈ records.map fun rec => validate_single_association H rec cert,
        a.valid = false) →
      (validate_tlsa H ⟨.ok records, .ok cert⟩ domain port protocol).tlsa_status =
        "no_matches" ∧
      (validate_tlsa H ⟨.ok records, .ok cert⟩ domain port
        protocol).dane_validation.status = "no_associations") := by
  obtain ⟨rec0, recs, hrecs⟩ := List.exists_cons_of_ne_nil hne
  subst hrecs
  refine ⟨?_, ?_, ?_⟩
  · rintro ⟨a, ha, hav⟩
    rcases hf : List.filter (fun a => a.valid)
        (List.map (fun rec => validate_single_association H rec cert)
          (rec0 :: recs)) with _ | ⟨x, xs⟩
    · exact absurd hav (List.filter_eq_nil_iff.mp hf a ha)
    · simp only [validate_tlsa, query_tlsa_records, validate_dane_associations,
        List.isEmpty_cons, Bool.false_eq_true, if_false, hf]
      rfl
  · rintro hno ⟨a, ha, hav⟩
    have hfA : List.filter (fun a => a.valid)
        (List.map (fun rec => validate_single_association H rec cert)
          (rec0 :: recs)) = [] := by
      rw [List.filter_eq_nil_iff]
      intro b hb hbv
      exact hno ⟨b, hb, hbv⟩
    rcases hf2 : List.filter (fun a => !a.valid)
        (List.map (fun rec => validate_single_association H rec cert)
          (rec0 :: recs)) with _ | ⟨x, xs⟩
    · exfalso
      have hx := List.filter_eq_nil_iff.mp hf2 a ha
      simp [hav] at hx
    · simp only [validate_tlsa, query_tlsa_records, validate_dane_associations,
        List.isEmpty_cons, Bool.false_eq_true, if_false, hfA, hf2]
      rfl
  · intro hno hno2
    exfalso
    rcases hv : (validate_single_association H rec0 cert).valid with _ | _
    · exact hno2 ⟨validate_single_association H rec0 cert, by simp, hv⟩
    · exact hno ⟨validate_single_association H rec0 cert, by simp, hv⟩

/-- Witness for C5 at a concrete run: one TLSA record whose association
matches the certificate's raw hex, so the overall status is "valid". -/
theorem tlsa_status_aggregation_witness :
    (((⟨3, 0, 0, "ab"⟩ : TLSARecord) :: []) ≠ [] ∧
      (∃ a ∈ ([⟨3, 0, 0, "ab"⟩] : List TLSARecord).map fun rec =>
          validate_single_association hashStub rec ⟨[171], []⟩,
        a.valid = true)) ∧
    (validate_tlsa hashStub ⟨.ok [⟨3, 0, 0, "ab"⟩], .ok ⟨[171], []⟩⟩
      "example.com" 443 "tcp").tlsa_status = "valid" := by
  refine ⟨⟨by decide, ?_⟩, ?_⟩
  · exact ⟨validate_single_association hashStub ⟨3, 0, 0, "ab"⟩ ⟨[171], []⟩,
      by simp, by decide⟩
  · exact (tlsa_status_aggregation hashStub [⟨3, 0, 0, "ab"⟩] ⟨[171], []⟩
      "example.com" 443 "tcp" (by decide)).1
      ⟨validate_single_association hashStub ⟨3, 0, 0, "ab"⟩ ⟨[171], []⟩,
        by simp, by decide⟩

/-! ## Claim C6: transport failures at the query boundary

The claim says a transport failure is converted to status `"error"` for
chain validation with a message appended to `errors`. In the code,
`_query_dnskey` swallows every exception and returns `None`, which
`_validate_chain_of_trust` cannot distinguish from record absence: a DNS
timeout during the DNSKEY query therefore yields status `"insecure"` with
an empty errors list, and a DS-query failure after a successful DNSKEY
query yields `"invalid"`. Only the TLSA component produces a terminal
status with a message (`"error"` for a DNS failure, `"cert_unavailable"`
for a TLS fetch failure). No failure escapes as a raw exception. -/

/-- Counterexample to C6 as stated: a DNS timeout during the chain
validator's DNSKEY query produces status `"insecure"` — not `"error"` —
and appends nothing to the errors list. -/
theorem transport_error_chain_counterexample :
    (validate hashStub ⟨⟨.transportError "DNS timeout", .absent⟩, tlsaQuiet⟩
      "example.com" "t").status = "insecure" ∧
    (validate hashStub ⟨⟨.transportError "DNS timeout", .absent⟩, tlsaQuiet⟩
      "example.com" "t").errors = [] ∧
    "insecure" ≠ "error" :=
  ⟨rfl, rfl, by decide⟩

/-- C6 (amended): transport failures are always caught at the query
boundary and never escape as exceptions, but the statuses differ by
component: a chain-validation DNSKEY transport failure is treated as record
absence (status `"insecure"`, empty errors list), a DS transport failure
after a successful DNSKEY answer yields `"invalid"`; in TLSA validation a
DNS transport failure yields `"error"` and a TLS fetch failure yields
`"cert_unavailable"`, each appending one message to `errors`. -/
theorem transport_error_boundaries (H : HashImpl) (tlsaEnv : TLSAEnv)
    (dsr : QueryResult DSRecord) (cf : Except String CertInfo)
    (domain now msg : String) :
    ((validate H ⟨⟨.transportError msg, dsr⟩, tlsaEnv⟩ domain now).status =
        "insecure" ∧
      (validate H ⟨⟨.transportError msg, dsr⟩, tlsaEnv⟩ domain now).errors = []) ∧
    (∀ ks : List DNSKEYRecord, ks ≠ [] →
      (validate H ⟨⟨.ok ks, .transportError msg⟩, tlsaEnv⟩ domain now).status =
        "invalid") ∧
    ((validate_tlsa H ⟨.transportError msg, cf⟩ domain 443 "tcp").tlsa_status =
        "error" ∧
      (validate_tlsa H ⟨.transportError msg, cf⟩ domain 443 "tcp").errors =
        ["TLSA validation failed: " ++ msg]) ∧
    (∀ records : List TLSARecord, records ≠ [] →
      (validate_tlsa H ⟨.ok records, .error msg⟩ domain 443 "tcp").tlsa_status =
        "cert_unavailable" ∧
      (validate_tlsa H ⟨.ok records, .error msg⟩ domain 443 "tcp").errors =
        ["TLS certificate retrieval failed: " ++ msg]) := by
  refine ⟨?_, ?_, ?_, ?_⟩
  · constructor <;>
      simp [validate, validate_chain_of_trust, query_dnskey, initResults]
  · intro ks hk
    obtain ⟨k, ks', hks⟩ := List.exists_cons_of_ne_nil hk
    subst hks
    simp [validate, validate_chain_of_trust, query_dnskey, query_ds,
      initResults]
  · exact ⟨rfl, rfl⟩
  · intro records hr
    obtain ⟨rec0, recs, hrecs⟩ := List.exists_cons_of_ne_nil hr
    subst hrecs
    exact ⟨rfl, rfl⟩

/-- Witness for the amended C6 at concrete environments. -/
theorem transport_error_boundaries_witness :
    ([ksk13] ≠ [] ∧ (([⟨3, 0, 0, "ab"⟩] : List TLSARecord) ≠ [])) ∧
    (validate hashStub ⟨⟨.ok [ksk13], .transportError "timeout"⟩, tlsaQuiet⟩
      "example.com" "t").status = "invalid" ∧
    (validate_tlsa hashStub ⟨.ok [⟨3, 0, 0, "ab"⟩], .error "refused"⟩
      "example.com" 443 "tcp").tlsa_status = "cert_unavailable" := by
  refine ⟨⟨by decide, by decide⟩, ?_, ?_⟩
  · exact (transport_error_boundaries hashStub tlsaQuiet .absent
      (.error "x") "example.com" "t" "timeout").2.1 [ksk13] (by decide)
  · exact ((transport_error_boundaries hashStub tlsaQuiet .absent
      (.error "x") "example.com" "t" "refused").2.2.2 [⟨3, 0, 0, "ab"⟩]
      (by decide)).1

/-! ## Claim C7: the fallback policy of `validate_with_fallback` -/

/-- A valid domain string is nonempty. -/
theorem valid_domain_nonempty (domain : String)
    (hv : is_valid_domain_format domain = true) :
    domain.data.isEmpty = false := by
  simp only [is_valid_domain_format, Bool.and_eq_true, Bool.not_eq_true'] at hv
  exact hv.1.1.1.1.1.1

/-- On a valid domain, `extract_root_domain` always produces a root. -/
theorem extract_root_domain_isSome (domain : String)
    (hv : is_valid_domain_format domain = true) :
    ∃ root, extract_root_domain domain = some root := by
  have hne := valid_domain_nonempty domain hv
  simp only [extract_root_domain, hne, hv, Bool.not_true, Bool.or_self,
    Bool.false_eq_true, if_false]
  split_ifs <;> exact ⟨_, rfl⟩

/-- A terminal first attempt (`valid`, `insecure` or `error`) stops the
fallback loop immediately. -/
theorem run_attempts_terminal (H : HashImpl) (envOf : String → DomainEnv)
    (now d : String) (rest : List String) (i : Nat)
    (hs : (validate H (envOf d) d now).status = "valid" ∨
      (validate H (envOf d) d now).status = "insecure" ∨
      (validate H (envOf d) d now).status = "error") :
    run_fallback_attempts H envOf now (d :: rest) i =
      ([⟨d, if !(i == 0) then "fallback" else "primary",
          validate H (envOf d) d now⟩],
       some (validate H (envOf d) d now, !(i == 0))) := by
  unfold run_fallback_attempts
  rcases hs with hs | hs | hs <;> simp [hs]

/-- The last candidate always ends the fallback loop, whatever its status. -/
theorem run_attempts_last (H : HashImpl) (envOf : String → DomainEnv)
    (now d : String) (i : Nat) :
    run_fallback_attempts H envOf now [d] i =
      ([⟨d, if !(i == 0) then "fallback" else "primary",
          validate H (envOf d) d now⟩],
       some (validate H (envOf d) d now, !(i == 0))) := by
  unfold run_fallback_attempts
  by_cases b1 : (validate H (envOf d) d now).status == "valid"
  · simp [b1]
  · by_cases b2 : ((validate H (envOf d) d now).status == "insecure" ||
        (validate H (envOf d) d now).status == "error")
    · simp only [b1, Bool.false_eq_true, if_false, b2, if_true]
    · simp [b1, b2]

/-- An `invalid` first attempt with one candidate remaining records two
attempts and settles on the second result, marked as fallback. -/
theorem run_attempts_invalid_then_last (H : HashImpl)
    (envOf : String → DomainEnv) (now d1 d2 : String)
    (h1 : (validate H (envOf d1) d1 now).status = "invalid") :
    run_fallback_attempts H envOf now [d1, d2] 0 =
      ([⟨d1, "primary", validate H (envOf d1) d1 now⟩,
        ⟨d2, "fallback", validate H (envOf d2) d2 now⟩],
       some (validate H (envOf d2) d2 now, true)) := by
  have hrec := run_attempts_last H envOf now d2 1
  unfold run_fallback_attempts
  simp [h1, hrec]

/-- C7: the fallback resolver tries `[domain, rootDomain]` in order, with
the root candidate added exactly when the domain has more than two labels
and a distinct root; a `valid`/`insecure`/`error` attempt is final, an
`invalid` attempt falls through to the remaining candidate; on
`www.example.com` with an invalid primary and a valid root attempt the
final status is `valid` with fallback_used true, and a two-label domain
records exactly one attempt with fallback_used false. -/
theorem fallback_policy (H : HashImpl) (envOf : String → DomainEnv)
    (now : String) :
    (∀ domain : String, is_valid_domain_format domain = true →
      get_fallback_domains domain =
        if 2 < (splitOnChar '.' domain.data).length ∧
            (extract_root_domain domain).getD domain ≠ domain then
          [domain, (extract_root_domain domain).getD domain]
        else [domain]) ∧
    (∀ domain : String, is_valid_domain_format domain = true →
      ((validate H (envOf domain) domain now).status = "valid" ∨
        (validate H (envOf domain) domain now).status = "insecure" ∨
        (validate H (envOf domain) domain now).status = "error") →
      (validate_with_fallback H envOf domain none now).result =
        validate H (envOf domain) domain now ∧
      (validate_with_fallback H envOf domain none now).fallback_info.total_attempts = 1 ∧
      (validate_with_fallback H envOf domain none now).fallback_info.fallback_used = false) ∧
    (∀ domain root : String, get_fallback_domains domain = [domain, root] →
      (validate H (envOf domain) domain now).status = "invalid" →
      (validate_with_fallback H envOf domain none now).result =
        validate H (envOf root) root now ∧
      (validate_with_fallback H envOf domain none now).fallback_info.total_attempts = 2 ∧
      (validate_with_fallback H envOf domain none now).fallback_info.fallback_used = true) ∧
    ((validate H (envOf "www.example.com") "www.example.com" now).status = "invalid" →
      (validate H (envOf "example.com") "example.com" now).status = "valid" →
      (validate_with_fallback H envOf "www.example.com" none now).result.status = "valid" ∧
      (validate_with_fallback H envOf "www.example.com" none now).fallback_info.fallback_used = true) ∧
    (∀ domain : String, is_valid_domain_format domain = true →
      (splitOnChar '.' domain.data).length = 2 →
      (validate_with_fallback H envOf domain none now).fallback_info.total_attempts = 1 ∧
      (validate_with_fallback H envOf domain none now).fallback_info.fallback_used = false) := by
  have hA : ∀ domain : String, is_valid_domain_format domain = true →
      get_fallback_domains domain =
        if 2 < (splitOnChar '.' domain.data).length ∧
            (extract_root_domain domain).getD domain ≠ domain then
          [domain, (extract_root_domain domain).getD domain]
        else [domain] := by
    intro domain hv
    have hne := valid_domain_nonempty domain hv
    obtain ⟨root, hroot⟩ := extract_root_domain_isSome domain hv
    have hgetD : (extract_root_domain domain).getD domain = root := by
      rw [hroot]
      rfl
    rw [hgetD]
    simp only [get_fallback_domains, has_subdomain, hne, hv, hroot,
      Bool.not_false, Bool.true_and, Bool.false_eq_true, if_false,
      decide_eq_true_eq]
    by_cases hlen : 2 < (splitOnChar '.' domain.data).length
    · simp only [hlen, if_true, true_and]
      by_cases hr : root = domain
      · simp [hr]
      · simp [hr, bne_iff_ne, Ne.symm]
    · simp [hlen]
  have hB : ∀ domain : String, is_valid_domain_format domain = true →
      ((validate H (envOf domain) domain now).status = "valid" ∨
        (validate H (envOf domain) domain now).status = "insecure" ∨
        (validate H (envOf domain) domain now).status = "error") →
      (validate_with_fallback H envOf domain none now).result =
        validate H (envOf domain) domain now ∧
      (validate_with_fallback H envOf domain none now).fallback_info.total_attempts = 1 ∧
      (validate_with_fallback H envOf domain none now).fallback_info.fallback_used = false := by
    intro domain hv hs
    have hcand := hA domain hv
    by_cases hsplit : 2 < (splitOnChar '.' domain.data).length ∧
        (extract_root_domain domain).getD domain ≠ domain
    · rw [if_pos hsplit] at hcand
      have hterm := run_attempts_terminal H envOf now domain
        [(extract_root_domain domain).getD domain] 0 hs
      simp only [validate_with_fallback, hcand, hterm]
      simp
    · rw [if_neg hsplit] at hcand
      have hterm := run_attempts_terminal H envOf now domain [] 0 hs
      simp only [validate_with_fallback, hcand, hterm]
      simp
  have hC : ∀ domain root : String, get_fallback_domains domain = [domain, root] →
      (validate H (envOf domain) domain now).status = "invalid" →
      (validate_with_fallback H envOf domain none now).result =
        validate H (envOf root) root now ∧
      (validate_with_fallback H envOf domain none now).fallback_info.total_attempts = 2 ∧
      (validate_with_fallback H envOf domain none now).fallback_info.fallback_used = true := by
    intro domain root hcand h1
    have hterm := run_attempts_invalid_then_last H envOf now domain root h1
    simp only [validate_with_fallback, hcand, hterm]
    simp
  refine ⟨hA, hB, hC, ?_, ?_⟩
  · intro h1 h2
    have hcand : get_fallback_domains "www.example.com" =
        ["www.example.com", "example.com"] := by rfl
    obtain ⟨hres, _, hused⟩ := hC "www.example.com" "example.com" hcand h1
    rw [hres]
    exact ⟨h2, hused⟩
  · intro domain hv hlen
    have hcand := hA domain hv
    rw [hlen] at hcand
    simp only [Nat.lt_irrefl, false_and, if_false] at hcand
    have hterm : run_fallback_attempts H envOf now [domain] 0 =
        ([⟨domain, if !(0 == 0) then "fallback" else "primary",
            validate H (envOf domain) domain now⟩],
         some (validate H (envOf domain) domain now, !(0 == 0))) :=
      run_attempts_last H envOf now domain 0
    simp only [validate_with_fallback, hcand, hterm]
    simp




/-- Witness for C7 at the concrete scenario environment. -/
theorem fallback_policy_witness :
    ((validate hashStub (envOfScenario "www.example.com") "www.example.com"
        "t").status = "invalid" ∧
      (validate hashStub (envOfScenario "example.com") "example.com"
        "t").status = "valid") ∧
    (validate_with_fallback hashStub envOfScenario "www.example.com" none
      "t").result.status = "valid" ∧
    (validate_with_fallback hashStub envOfScenario "www.example.com" none
      "t").fallback_info.fallback_used = true := by
  have h1 : (validate hashStub (envOfScenario "www.example.com")
      "www.example.com" "t").status = "invalid" := by decide
  have h2 : (validate hashStub (envOfScenario "example.com") "example.com"
      "t").status = "valid" := by decide
  exact ⟨⟨h1, h2⟩,
    (fallback_policy hashStub envOfScenario "t").2.2.2.1 h1 h2⟩

/-! ## Claim C8: domain extraction and the domain-format check

Structural lemmas about `splitOnChar` relating the split-based regex reading
to the character-level checks of `is_valid_domain_format`. -/

theorem splitOnChar_ne_nil (c : Char) (l : List Char) :
    splitOnChar c l ≠ [] := by
  induction l with
  | nil => simp [splitOnChar]
  | cons x rest ih =>
    unfold splitOnChar
    by_cases hx : x == c
    · simp [hx]
    · simp only [hx, Bool.false_eq_true, if_false]
      rcases hr : splitOnChar c rest with _ | ⟨h, t⟩
      · simp
      · simp

/-- The split of a cons on the separator itself. -/
theorem splitOnChar_cons_sep (c : Char) (rest : List Char) :
    splitOnChar c (c :: rest) = [] :: splitOnChar c rest := by
  conv_lhs => rw [splitOnChar]
  simp

/-- The split of a cons on a non-separator character. -/
theorem splitOnChar_cons_ne (c x : Char) (rest : List Char)
    (hx : (x == c) = false) :
    splitOnChar c (x :: rest) =
      (x :: (splitOnChar c rest).headD []) :: (splitOnChar c rest).tail := by
  rcases hr : splitOnChar c rest with _ | ⟨h, t⟩
  · exact absurd hr (splitOnChar_ne_nil c rest)
  · conv_lhs => rw [splitOnChar]
    simp [hx, hr]

/-- A split with at least two parts means the separator occurs. -/
theorem contains_of_splitOnChar_length (c : Char) (l : List Char)
    (h : 2 ≤ (splitOnChar c l).length) : l.contains c = true := by
  induction l with
  | nil => simp [splitOnChar] at h
  | cons x rest ih =>
    by_cases hx : (x == c) = true
    · have hxc : x = c := by simpa using hx
      subst hxc
      simp [List.contains_cons]
    · rw [Bool.not_eq_true] at hx
      rw [splitOnChar_cons_ne c x rest hx] at h
      rcases hr : splitOnChar c rest with _ | ⟨hh, t⟩
      · exact absurd hr (splitOnChar_ne_nil c rest)
      · rw [hr] at h
        simp only [List.length_cons, List.tail_cons] at h
        have h2 : 2 ≤ (splitOnChar c rest).length := by
          rw [hr]
          simp only [List.length_cons]
          omega
        rw [List.contains_cons, ih h2]
        simp

/-- Conversely, an occurrence of the separator forces at least two parts. -/
theorem splitOnChar_length_of_contains (c : Char) (l : List Char)
    (h : l.contains c = true) : 2 ≤ (splitOnChar c l).length := by
  induction l with
  | nil => simp at h
  | cons x rest ih =>
    by_cases hx : (x == c) = true
    · have hxc : x = c := by simpa using hx
      subst hxc
      rw [splitOnChar_cons_sep]
      have := splitOnChar_ne_nil x rest
      rcases hr : splitOnChar x rest with _ | ⟨hh, t⟩
      · exact absurd hr this
      · simp
    · rw [Bool.not_eq_true] at hx
      rw [splitOnChar_cons_ne c x rest hx]
      have hrest : rest.contains c = true := by
        rw [List.contains_cons] at h
        have hcx : (c == x) = false := by
          rw [beq_eq_false_iff_ne]
          intro hcx
          subst hcx
          simp at hx
        rw [hcx] at h
        simpa using h
      have hlen := ih hrest
      rcases hr : splitOnChar c rest with _ | ⟨hh, t⟩
      · exact absurd hr (splitOnChar_ne_nil c rest)
      · rw [hr] at hlen
        simp only [List.length_cons] at hlen
        simp only [hr, List.tail_cons, List.length_cons]
        omega

/-- A trailing separator makes the last part empty. -/
theorem splitOnChar_getLast_of_sep (c : Char) (l : List Char)
    (hl : l ≠ []) (h : l.getLast? = some c) :
    (splitOnChar c l).getLast? = some [] := by
  induction l with
  | nil => exact absurd rfl hl
  | cons x rest ih =>
    rcases rest with _ | ⟨y, rest2⟩
    · have hxc : x = c := by simpa using h
      subst hxc
      rw [splitOnChar_cons_sep]
      simp [splitOnChar]
    · have hres : (y :: rest2).getLast? = some c := by
        rw [← h, List.getLast?_cons_cons]
      have hne : (y :: rest2) ≠ [] := by simp
      have ihr := ih hne hres
      by_cases hx : (x == c) = true
      · have hxc : x = c := by simpa using hx
        subst hxc
        rw [splitOnChar_cons_sep]
        rcases hr : splitOnChar x (y :: rest2) with _ | ⟨hh, t⟩
        · exact absurd hr (splitOnChar_ne_nil x (y :: rest2))
        · rw [hr] at ihr
          rw [List.getLast?_cons_cons]
          exact ihr
      · rw [Bool.not_eq_true] at hx
        rw [splitOnChar_cons_ne c x (y :: rest2) hx]
        have hcontains : (y :: rest2).contains c = true :=
          List.elem_eq_true_of_mem (List.mem_of_mem_getLast? hres)
        have hlen := splitOnChar_length_of_contains c (y :: rest2) hcontains
        rcases hr : splitOnChar c (y :: rest2) with _ | ⟨hh, t⟩
        · exact absurd hr (splitOnChar_ne_nil c (y :: rest2))
        · rw [hr] at ihr hlen
          rcases t with _ | ⟨t0, ts⟩
          · simp at hlen
          · simp only [List.headD_cons, List.tail_cons]
            rw [List.getLast?_cons_cons]
            rw [List.getLast?_cons_cons] at ihr
            exact ihr

/-- A doubled separator leaves an empty part strictly after the first. -/
theorem splitOnChar_tail_empty_of_double (c : Char) (l : List Char)
    (h : containsSub [c, c] l = true) :
    (splitOnChar c l).tail.contains ([] : List Char) = true := by
  induction l with
  | nil => simp [containsSub, breakOnFirst] at h
  | cons x rest ih =>
    unfold containsSub breakOnFirst at h
    by_cases hp : [c, c].isPrefixOf (x :: rest) = true
    · rw [List.isPrefixOf_iff_prefix] at hp
      obtain ⟨tl, htl⟩ := hp
      have h1 : c :: (c :: tl) = x :: rest := by simpa using htl
      rw [List.cons_eq_cons] at h1
      obtain ⟨hx, hrest⟩ := h1
      subst hx
      subst hrest
      rw [splitOnChar_cons_sep, splitOnChar_cons_sep]
      simp
    · simp only [hp, Bool.false_eq_true, if_false] at h
      have hrest : containsSub [c, c] rest = true := by
        unfold containsSub
        rcases hb : breakOnFirst [c, c] rest with _ | pr
        · rw [hb] at h
          simp at h
        · simp
      have ihr := ih hrest
      by_cases hx : (x == c) = true
      · have hxc : x = c := by simpa using hx
        subst hxc
        rw [splitOnChar_cons_sep]
        simp only [List.tail_cons]
        rcases hr : splitOnChar x rest with _ | ⟨hh, t⟩
        · exact absurd hr (splitOnChar_ne_nil x rest)
        · rw [hr] at ihr
          simp only [List.tail_cons] at ihr
          have hmem : ([] : List Char) ∈ t := List.mem_of_elem_eq_true ihr
          exact List.elem_eq_true_of_mem (List.mem_cons_of_mem hh hmem)
      · rw [Bool.not_eq_true] at hx
        rw [splitOnChar_cons_ne c x rest hx]
        simp only [List.tail_cons]
        rcases hr : splitOnChar c rest with _ | ⟨hh, t⟩
        · exact absurd hr (splitOnChar_ne_nil c rest)
        · rw [hr] at ihr
          simpa using ihr

/-- The character-level checks of `is_valid_domain_format` are exactly the
label decomposition of `amendedDomainFormat`, except on strings ending in a
newline (where Python's `$` anchor also matches before the final newline). -/
theorem is_valid_eq_amended (s : String) (hnl : s.data.getLastD ' ' ≠ '\n') :
    is_valid_domain_format s = amendedDomainFormat s := by
  have fwd : is_valid_domain_format s = true → amendedDomainFormat s = true := by
    intro hV
    simp only [is_valid_domain_format, Bool.and_eq_true, Bool.not_eq_true'] at hV
    obtain ⟨⟨⟨⟨⟨⟨hne, h253⟩, hdot⟩, hhead⟩, hlast⟩, hdd⟩, hmatch⟩ := hV
    have hcore : domainRegexCore s.data = true := by
      unfold domainRegexMatch at hmatch
      rw [Bool.or_eq_true] at hmatch
      rcases hmatch with h | h
      · exact h
      · rw [Bool.and_eq_true] at h
        exact absurd (beq_iff_eq.mp h.1) hnl
    simp only [domainRegexCore, Bool.and_eq_true, decide_eq_true_eq] at hcore
    obtain ⟨⟨hlen2, hlab⟩, htld⟩ := hcore
    simp only [amendedDomainFormat, Bool.and_eq_true, decide_eq_true_eq] at h253 ⊢
    exact ⟨⟨⟨h253, hlen2⟩, hlab⟩, htld⟩
  have bwd : amendedDomainFormat s = true → is_valid_domain_format s = true := by
    intro hA
    simp only [amendedDomainFormat, Bool.and_eq_true, decide_eq_true_eq] at hA
    obtain ⟨⟨⟨h253, hlen2⟩, hlab⟩, htld⟩ := hA
    have hlne : s.data ≠ [] := by
      intro h0
      rw [h0] at hlen2
      simp [splitOnChar] at hlen2
    have hpartsne := splitOnChar_ne_nil '.' s.data
    have hnonempty : ∀ p ∈ splitOnChar '.' s.data, p ≠ [] := by
      intro p hp
      have hdec := List.dropLast_append_getLast hpartsne
      rw [← hdec] at hp
      rcases List.mem_append.mp hp with hmem | hmem
      · have hL := List.all_eq_true.mp hlab p hmem
        intro h0
        rw [h0] at hL
        simp [labelMatches] at hL
      · have heq : p = (splitOnChar '.' s.data).getLast hpartsne := by
          simpa using hmem
        intro h0
        have hgl : (splitOnChar '.' s.data).getLastD [] = [] := by
          rw [List.getLastD_eq_getLast?, List.getLast?_eq_getLast _ hpartsne]
          rw [← heq, h0]
          rfl
        rw [hgl] at htld
        simp [tldMatches] at htld
    have hle : s.data.isEmpty = false := by
      rcases hd : s.data with _ | _
      · exact absurd hd hlne
      · rfl
    have hcontains : s.data.contains '.' = true :=
      contains_of_splitOnChar_length '.' s.data hlen2
    have hhead : (s.data.headD ' ' == '.') = false := by
      rw [beq_eq_false_iff_ne]
      intro hh
      rcases hd : s.data with _ | ⟨x, rest⟩
      · exact hlne hd
      · rw [hd] at hh
        simp only [List.headD_cons] at hh
        subst hh
        have hmem : ([] : List Char) ∈ splitOnChar '.' s.data := by
          rw [hd, splitOnChar_cons_sep]
          exact List.mem_cons_self _ _
        exact hnonempty [] hmem rfl
    have hlast : (s.data.getLastD ' ' == '.') = false := by
      rw [beq_eq_false_iff_ne]
      intro hl
      have hiss : s.data.getLast?.isSome := List.getLast?_isSome.mpr hlne
      obtain ⟨a, ha⟩ := Option.isSome_iff_exists.mp hiss
      have haa : a = '.' := by
        rw [List.getLastD_eq_getLast?, ha] at hl
        simpa using hl
      subst haa
      have hgl := splitOnChar_getLast_of_sep '.' s.data hlne ha
      exact hnonempty [] (List.mem_of_mem_getLast? hgl) rfl
    have hdd : containsSub ['.', '.'] s.data = false := by
      rw [Bool.eq_false_iff]
      intro hc
      have htail := splitOnChar_tail_empty_of_double '.' s.data hc
      have hmem := List.mem_of_elem_eq_true htail
      exact hnonempty [] (List.mem_of_mem_tail hmem) rfl
    have hcore : domainRegexCore s.data = true := by
      simp only [domainRegexCore, Bool.and_eq_true, decide_eq_true_eq]
      exact ⟨⟨hlen2, hlab⟩, htld⟩
    simp only [is_valid_domain_format, Bool.and_eq_true, Bool.not_eq_true',
      decide_eq_true_eq]
    refine ⟨⟨⟨⟨⟨⟨hle, h253⟩, hcontains⟩, hhead⟩, hlast⟩, hdd⟩, ?_⟩
    unfold domainRegexMatch
    rw [hcore]
    simp
  cases hV : is_valid_domain_format s
  · cases hA : amendedDomainFormat s
    · rfl
    · exact absurd (bwd hA) (by simp [hV])
  · rw [fwd hV]

/-- A substring occurrence built by explicit concatenation is found. -/
theorem containsSub_append (sep a b : List Char) :
    containsSub sep (a ++ (sep ++ b)) = true := by
  induction a with
  | nil =>
    rw [List.nil_append]
    unfold containsSub
    cases sep with
    | nil =>
      cases b with
      | nil => rfl
      | cons c rest => rfl
    | cons c cs =>
      have hpre : (c :: cs).isPrefixOf ((c :: cs) ++ b) = true := by
        rw [List.isPrefixOf_iff_prefix]
        exact List.prefix_append _ _
      rw [List.cons_append]
      rw [List.cons_append] at hpre
      simp only [breakOnFirst, hpre, if_true]
      rfl
  | cons x a' ih =>
    rw [List.cons_append]
    unfold containsSub at ih ⊢
    by_cases hp : sep.isPrefixOf (x :: (a' ++ (sep ++ b))) = true
    · simp only [breakOnFirst, hp, if_true]
      rfl
    · rw [Bool.not_eq_true] at hp
      simp only [breakOnFirst, hp, Bool.false_eq_true, if_false]
      rcases hb : breakOnFirst sep (a' ++ (sep ++ b)) with _ | pr
      · rw [hb] at ih
        simp at ih
      · rcases pr with ⟨pre, post⟩
        rfl

/-- When the cleaned input contains no scheme separator, extraction reduces
to suffix-trimming plus the format check. -/
theorem extract_domain_bare (sIn : String)
    (hno : containsSub "://".data (cleanInput sIn.data) = false) :
    extract_domain_from_input sIn =
      (if is_valid_domain_format ⟨bareTrim (cleanInput sIn.data)⟩ then
        some ⟨bareTrim (cleanInput sIn.data)⟩ else none) := by
  unfold extract_domain_from_input
  by_cases hs0 : sIn.data.isEmpty = true
  · rw [if_pos hs0]
    have hdata : sIn.data = [] := by simpa using hs0
    rw [hdata]
    rfl
  · rw [if_neg hs0]
    have hbreak : breakOnFirst "://".data (cleanInput sIn.data) = none := by
      rcases hb : breakOnFirst "://".data (cleanInput sIn.data) with _ | pr
      · rfl
      · unfold containsSub at hno
        rw [hb] at hno
        simp at hno
    have hany : urlSchemes.any
        (fun p => p.isPrefixOf (cleanInput sIn.data)) = false := by
      rw [Bool.eq_false_iff]
      intro ha
      rw [List.any_eq_true] at ha
      obtain ⟨p, hp, hpre⟩ := ha
      rw [List.isPrefixOf_iff_prefix] at hpre
      obtain ⟨tl, htl⟩ := hpre
      have hsplit : ∃ a, p = a ++ "://".data := by
        simp only [urlSchemes, List.mem_cons, List.not_mem_nil, or_false] at hp
        rcases hp with h | h | h
        · exact ⟨"http".data, by rw [h]; rfl⟩
        · exact ⟨"https".data, by rw [h]; rfl⟩
        · exact ⟨"ftp".data, by rw [h]; rfl⟩
      obtain ⟨a, hpa⟩ := hsplit
      rw [hpa] at htl
      have hcc : containsSub "://".data (cleanInput sIn.data) = true := by
        rw [← htl, List.append_assoc]
        exact containsSub_append _ a tl
      rw [hcc] at hno
      simp at hno
    simp only [hany, Bool.false_eq_true, if_false, hbreak]

/-- A recognised URL scheme short-circuits extraction to the parsed host,
with no format validation. -/
theorem extract_domain_url (sIn : String) (h : List Char)
    (hpre : urlSchemes.any (fun p => p.isPrefixOf (cleanInput sIn.data)) = true)
    (hh : urlHostname (cleanInput sIn.data) = some h) (hne : h ≠ []) :
    extract_domain_from_input sIn = some ⟨h⟩ := by
  have hs0 : sIn.data.isEmpty = false := by
    rw [Bool.eq_false_iff]
    intro h0
    have hdata : sIn.data = [] := by simpa using h0
    rw [hdata] at hpre
    exact absurd hpre (by decide)
  unfold extract_domain_from_input
  rw [if_neg (by simp [hs0])]
  have hie : h.isEmpty = false := by
    rcases h with _ | _
    · exact absurd rfl hne
    · rfl
  simp only [hpre, if_true, hh, hie, Bool.false_eq_true, if_false]

/-- Counterexample to C8 as stated: the code rejects `"a1.b2"` although it
satisfies the claimed DomainName format (last label of length ≥ 2), and the
URL branch returns `"invalid..domain"` with no format validation at all. -/
theorem extract_domain_counterexample :
    (claimDomainFormat "a1.b2" = true ∧
      extract_domain_from_input "a1.b2" = none) ∧
    (extract_domain_from_input "http://invalid..domain" =
        some "invalid..domain" ∧
      claimDomainFormat "invalid..domain" = false) := by
  decide

/-- C8 (amended): ExtractDomain lowercases and cleans its input; an input
with a recognised URL scheme yields the parsed host with no further format
validation; a bare input (no "://" after cleaning) is trimmed of
path/query/fragment/port suffixes and accepted exactly when it satisfies
the code's domain format — the claimed format strengthened to a
letters-only final label; the claimed examples hold. -/
theorem extract_domain_policy :
    (∀ sIn : String, containsSub "://".data (cleanInput sIn.data) = false →
      extract_domain_from_input sIn =
        (if is_valid_domain_format ⟨bareTrim (cleanInput sIn.data)⟩ then
          some ⟨bareTrim (cleanInput sIn.data)⟩ else none)) ∧
    (∀ sIn : String, ∀ h : List Char,
      urlSchemes.any (fun p => p.isPrefixOf (cleanInput sIn.data)) = true →
      urlHostname (cleanInput sIn.data) = some h → h ≠ [] →
      extract_domain_from_input sIn = some ⟨h⟩) ∧
    (∀ s : String, s.data.getLastD ' ' ≠ '\n' →
      is_valid_domain_format s = amendedDomainFormat s) ∧
    (extract_domain_from_input "https://Example.COM:8080/path?q=1" =
        some "example.com" ∧
      extract_domain_from_input "invalid..domain" = none ∧
      extract_domain_from_input "" = none) :=
  ⟨extract_domain_bare, extract_domain_url, is_valid_eq_amended,
    by decide, by decide, rfl⟩

/-- Witness for the amended C8: a bare mixed-case input with a path suffix
is cleaned, trimmed and accepted. -/
theorem extract_domain_policy_witness :
    containsSub "://".data (cleanInput "Sub.Example.com/path".data) = false ∧
    extract_domain_from_input "Sub.Example.com/path" =
      some "sub.example.com" := by
  refine ⟨by decide, ?_⟩
  rw [extract_domain_policy.1 "Sub.Example.com/path" (by decide)]
  decide

end DV
